import Mathlib

/-!
Shallow embedding of the crate facade of the `jmespath` Rust library
(`src/lib.rs`): error values, source coordinates, diagnostic rendering,
compiled expressions and the `search` entry points.

The parser, lexer, interpreter and variable modules of the crate are not part
of the embedded source; where a claim depends on them, they appear either as
function parameters (the facade is generic in them) or as definitions modelled
from the specification, each marked `Modelled from the spec:` in its doc
comment.

All strings are treated as their character sequences (`String.data`), matching
the Rust code, which iterates with `expr.chars()`.
-/

namespace JmesPath

/-- Modelled from the spec: the AST node type lives in the `ast` module, which
is not under the embedded source. Only the constructors needed by the facade
claims are modelled; each node carries its source offset. -/
inductive Ast where
  | Identity (offset : Nat)
  | Field (name : String) (offset : Nat)
deriving DecidableEq, Repr

/-- Modelled from the spec: the engine's seven-variant value model (the
`Variable` enum of the `variable` module, which is not under the embedded
source). The `Number` payload is an IEEE-754 double in the implementation; it
is modelled by an integer here because no claim depends on numeric values. -/
inductive Variable where
  | null
  | bool (b : Bool)
  | number (n : Int)
  | string (s : String)
  | array (values : List Variable)
  | object (entries : List (String × Variable))
  | expref (ast : Ast)

/-- Runtime JMESPath error (`enum RuntimeError` in `lib.rs`), with `usize`
fields as `Nat` and `RcVar` as `Variable` (reference counting only affects
sharing, not values). -/
inductive RuntimeError where
  | InvalidSlice
  | InvalidKey (actual : String)
  | TooManyArguments (expected : Nat) (actual : Nat)
  | NotEnoughArguments (expected : Nat) (actual : Nat)
  | UnknownFunction (function : String)
  | InvalidType (expected : String) (actual : String) (actual_value : Variable)
      (position : Nat)
  | InvalidReturnType (expected : String) (actual : String)
      (actual_value : Variable) (position : Nat) (invocation : Nat)

/-- Error context (`enum ErrorReason` in `lib.rs`). -/
inductive ErrorReason where
  | Parse (msg : String)
  | Runtime (err : RuntimeError)

/-- Embeds `impl fmt::Display for RuntimeError`. The rendering of the offending
variable (`actual_value.to_string()` in Rust, implemented by the missing
`variable` module) is passed in as `vts`. The `{:?}` debug format of the
`InvalidKey` payload is Lean's `String` `repr`. -/
def RuntimeError.display (vts : Variable → String) : RuntimeError → String
  | .UnknownFunction function =>
      "Call to undefined function " ++ function
  | .TooManyArguments expected actual =>
      "Too many arguments, expected " ++ toString expected ++ ", found " ++
        toString actual
  | .NotEnoughArguments expected actual =>
      "Not enough arguments, expected " ++ toString expected ++ ", found " ++
        toString actual
  | .InvalidType expected actual actual_value position =>
      "Argument " ++ toString position ++ " expects type " ++ expected ++
        ", given " ++ actual ++ " " ++ vts actual_value
  | .InvalidSlice => "Invalid slice"
  | .InvalidReturnType expected actual actual_value position invocation =>
      "Argument " ++ toString position ++ " must return " ++ expected ++
        " but invocation " ++ toString invocation ++ " returned " ++ actual ++
        " " ++ vts actual_value
  | .InvalidKey actual =>
      "Invalid key. Expected string, found " ++ reprStr actual

/-- Embeds `impl fmt::Display for ErrorReason`. -/
def ErrorReason.display (vts : Variable → String) : ErrorReason → String
  | .Parse e => "Parse error: " ++ e
  | .Runtime e => "Runtime error: " ++ RuntimeError.display vts e

/-- Coordinates to a position in an expression string (`struct Coordinates`). -/
structure Coordinates where
  offset : Nat
  line : Nat
  column : Nat
deriving DecidableEq, Repr

/-- The accumulation loop of `Coordinates::from_offset`: fold over the
characters, bumping the line and resetting the column on each newline. -/
def countLoop : List Char → Nat → Nat → Nat × Nat
  | [], line, col => (line, col)
  | c :: cs, line, col =>
    if c = '\n' then countLoop cs (line + 1) 0
    else countLoop cs line (col + 1)

/-- Embeds `Coordinates::from_offset`: walk the first `offset` characters of the
expression (`expr.chars().take(offset)`). -/
def Coordinates.from_offset (expr : String) (offset : Nat) : Coordinates :=
  let lc := countLoop (expr.data.take offset) 0 0
  { offset := offset, line := lc.1, column := lc.2 }

/-- The carat line pushed by `Coordinates::inject_carat`: `column` spaces,
then `"^\n"`. -/
def Coordinates.caratChars (co : Coordinates) : List Char :=
  List.replicate co.column ' ' ++ ['^', '\n']

/-- Embeds `Coordinates::inject_carat`: append the carat line to the buffer. -/
def Coordinates.inject_carat (co : Coordinates) (buff : List Char) : List Char :=
  buff ++ co.caratChars

/-- The character loop of `Coordinates::expression_with_carat`: push each
character, and right after the newline that closes line `self.line` inject the
carat line and record the match. -/
def carLoop (co : Coordinates) :
    List Char → List Char → Bool → Nat → List Char × Bool
  | [], buff, matched, _ => (buff, matched)
  | c :: cs, buff, matched, current_line =>
    if c = '\n' then
      if current_line + 1 = co.line + 1 then
        carLoop co cs (co.inject_carat (buff ++ [c])) true (current_line + 1)
      else
        carLoop co cs (buff ++ [c]) matched (current_line + 1)
    else
      carLoop co cs (buff ++ [c]) matched current_line

/-- Embeds `Coordinates::expression_with_carat`: render the expression with the carat
line injected after the offending line, or appended (after a final newline)
when that line is the last one. -/
def Coordinates.expression_with_carat (co : Coordinates) (expr : String) :
    String :=
  let r := carLoop co expr.data [] false 0
  if r.2 then String.mk r.1
  else String.mk (co.inject_carat (r.1 ++ ['\n']))

/-- Embeds `impl fmt::Display for Coordinates`: `"line L, column C"`. -/
def Coordinates.display (co : Coordinates) : String :=
  "line " ++ toString co.line ++ ", column " ++ toString co.column

/-- JMESPath error (`struct Error` in `lib.rs`). -/
structure Error where
  coordinates : Coordinates
  expression : String
  error_reason : ErrorReason

/-- Embeds `Error::new`: attribute the reason to an offset in the expression. -/
def Error.new (expr : String) (offset : Nat) (error_reason : ErrorReason) :
    Error :=
  { expression := expr
    coordinates := Coordinates.from_offset expr offset
    error_reason := error_reason }

/-- Embeds `impl fmt::Display for Error`: `"{reason} ({coordinates})\n{carat view}"`. -/
def Error.display (vts : Variable → String) (e : Error) : String :=
  ErrorReason.display vts e.error_reason ++ " (" ++ e.coordinates.display ++
    ")\n" ++ e.coordinates.expression_with_carat e.expression

/-- The result type of a search (`SearchResult = Result<RcVar, Error>`). -/
def SearchResult := Except Error Variable

/-- A compiled JMESPath expression (`struct Expression<'a>` in `lib.rs`). The
tree-interpreter type is not under the embedded source, so the structure is
generic in it (`I` stands for `&'a TreeInterpreter`). -/
structure Expression (I : Type) where
  ast : Ast
  original : String
  interpreter : Option I

/-- Embeds `Expression::as_str`: the original expression text. -/
def Expression.as_str {I : Type} (e : Expression I) : String :=
  e.original

/-- Embeds `Expression::as_ast`: the parsed AST. -/
def Expression.as_ast {I : Type} (e : Expression I) : Ast :=
  e.ast

/-- Embeds `impl PartialEq for Expression`: equality is based on the original
string. -/
def Expression.eq {I : Type} (a b : Expression I) : Bool :=
  a.as_str == b.as_str

/-- Embeds `Expression::with_interpreter`: parse the expression (the parser lives in
the `parser` module, not under the embedded source, so it is a parameter) and
store the original text, the AST and the optional custom interpreter. -/
def Expression.with_interpreter {I : Type} (parse : String → Except Error Ast)
    (expression : String) (interp : Option I) : Except Error (Expression I) :=
  match parse expression with
  | Except.error e => Except.error e
  | Except.ok ast =>
      Except.ok { original := expression, ast := ast, interpreter := interp }

/-- Embeds `Expression::new`: compile with no custom interpreter. -/
def Expression.new {I : Type} (parse : String → Except Error Ast)
    (expression : String) : Except Error (Expression I) :=
  Expression.with_interpreter parse expression none

/-- Embeds `Expression::search`: serialize the data into the value model, then
interpret the AST against it.

The serializer (`ser`) and the interpreter dispatch (`interp`, applied to
either the stored custom interpreter or a freshly built default one `dflt`,
mirroring the `match self.interpreter` in the Rust code) live in modules that
are not under the embedded source and are parameters.

The Rust code unwraps the serializer result (`data.serialize(&mut ser).ok()
.unwrap()`), which panics when serialization fails; the panic is modelled by
the `none` result. -/
def Expression.search {I T : Type} (ser : T → Except String Variable)
    (interp : I → Variable → Ast → String → SearchResult) (dflt : I)
    (self : Expression I) (data : T) : Option SearchResult :=
  match (ser data).toOption with
  | none => none
  | some v =>
      match self.interpreter with
      | some i => some (interp i v self.ast self.original)
      | none => some (interp dflt v self.ast self.original)

/-- The crate-level `search` function:
`Expression::new(expression).and_then(|expr| expr.search(data))`, with a
parse error short-circuiting and a serializer panic propagating. -/
def search {I T : Type} (parse : String → Except Error Ast)
    (ser : T → Except String Variable)
    (interp : I → Variable → Ast → String → SearchResult) (dflt : I)
    (expression : String) (data : T) : Option SearchResult :=
  match Expression.new parse expression with
  | Except.error err => some (Except.error err)
  | Except.ok expr => Expression.search ser interp dflt expr data

/-- Modelled from the spec: `search(expression, value)` as the specification
words it — first compile the expression, and on success evaluate the compiled
expression on the value; when parsing fails, return that parse error without
evaluating. -/
def search_spec {I T : Type} (parse : String → Except Error Ast)
    (ser : T → Except String Variable)
    (interp : I → Variable → Ast → String → SearchResult) (dflt : I)
    (expression : String) (data : T) : Option SearchResult :=
  match Expression.new parse expression with
  | Except.error err => some (Except.error err)
  | Except.ok compiled => Expression.search ser interp dflt compiled data

/-- Modelled from the spec: the serde-style data model fed to the value
serializer (the adapter of the `variable` module, which is not under the
embedded source). Sequence elements and map keys and values are themselves
data-model nodes, so non-string map keys are representable. -/
inductive SerdeValue where
  | null
  | bool (b : Bool)
  | num (n : Int)
  | str (s : String)
  | seq (xs : List SerdeValue)
  | map (entries : List (SerdeValue × SerdeValue))

mutual

/-- Modelled from the spec: the serialization adapter — produce one of the
seven `Variable` variants for every visited node, and fail the ingestion with
a typed error when a node is unrepresentable (non-string object keys). -/
def serializeValue : SerdeValue → Except String Variable
  | SerdeValue.null => Except.ok Variable.null
  | SerdeValue.bool b => Except.ok (Variable.bool b)
  | SerdeValue.num n => Except.ok (Variable.number n)
  | SerdeValue.str s => Except.ok (Variable.string s)
  | SerdeValue.seq xs =>
      match serializeList xs with
      | Except.error e => Except.error e
      | Except.ok vs => Except.ok (Variable.array vs)
  | SerdeValue.map entries =>
      match serializeEntries entries with
      | Except.error e => Except.error e
      | Except.ok es => Except.ok (Variable.object es)

/-- Modelled from the spec: serialize the elements of a sequence in order. -/
def serializeList : List SerdeValue → Except String (List Variable)
  | [] => Except.ok []
  | x :: xs =>
      match serializeValue x with
      | Except.error e => Except.error e
      | Except.ok v =>
          match serializeList xs with
          | Except.error e => Except.error e
          | Except.ok vs => Except.ok (v :: vs)

/-- Modelled from the spec: serialize the entries of a map in order, failing
on the first key that is not a string. -/
def serializeEntries :
    List (SerdeValue × SerdeValue) → Except String (List (String × Variable))
  | [] => Except.ok []
  | (SerdeValue.str k, v) :: es =>
      match serializeValue v with
      | Except.error e => Except.error e
      | Except.ok vv =>
          match serializeEntries es with
          | Except.error e => Except.error e
          | Except.ok rest => Except.ok ((k, vv) :: rest)
  | (_, _) :: _ => Except.error "object keys must be strings"

end

/-- A stub parser used to instantiate the parse parameter at concrete
inputs: every expression parses to a `Field` node at offset 0. -/
def parseStub : String → Except Error Ast :=
  fun s => Except.ok (Ast.Field s 0)

/-- A stub interpreter dispatch used to instantiate the interpreter
parameter at concrete inputs: evaluation returns the data unchanged. -/
def interpStub : Unit → Variable → Ast → String → SearchResult :=
  fun _ v _ _ => Except.ok v

/-- A stub parser that always fails, used to instantiate the parse parameter
at concrete inputs when a parse error is wanted. -/
def parseFail : String → Except Error Ast :=
  fun s => Except.error (Error.new s 0 (ErrorReason.Parse "bad"))

theorem countLoop_fst (cs : List Char) (line col : Nat) :
    (countLoop cs line col).1 = line + cs.count '\n' := by
  induction cs generalizing line col with
  | nil => simp [countLoop]
  | cons c cs ih =>
    by_cases h : c = '\n'
    · subst h
      simp [countLoop, ih, List.count_cons]
      omega
    · simp [countLoop, h, ih, List.count_cons]

theorem takeWhile_append_list (p : Char → Bool) (l₁ l₂ : List Char) :
    (l₁ ++ l₂).takeWhile p =
      if l₁.all p then l₁ ++ l₂.takeWhile p else l₁.takeWhile p := by
  induction l₁ with
  | nil => simp
  | cons a l ih =>
    by_cases h : p a
    · by_cases h2 : l.all p <;>
        simp [List.takeWhile_cons, List.all_cons, h, h2, ih]
    · simp [List.takeWhile_cons, List.all_cons, h]

theorem takeWhile_self_of_all (p : Char → Bool) (l : List Char)
    (h : l.all p = true) : l.takeWhile p = l := by
  induction l with
  | nil => rfl
  | cons a l ih =>
    simp only [List.all_cons, Bool.and_eq_true] at h
    simp [List.takeWhile_cons, h.1, ih h.2]

theorem all_ne_newline_iff (l : List Char) :
    (l.all (fun c => c != '\n')) = true ↔ '\n' ∉ l := by
  simp only [List.all_eq_true, bne_iff_ne]
  exact ⟨fun h hm => (h _ hm) rfl, fun h x hx he => h (he ▸ hx)⟩

theorem countLoop_snd (cs : List Char) (line col : Nat) :
    (countLoop cs line col).2 =
      (cs.reverse.takeWhile (fun c => c != '\n')).length +
        (if '\n' ∈ cs then 0 else col) := by
  induction cs generalizing line col with
  | nil => simp [countLoop]
  | cons c cs ih =>
    by_cases h : c = '\n'
    · subst h
      rw [show countLoop ('\n' :: cs) line col = countLoop cs (line + 1) 0 by
        simp [countLoop]]
      rw [ih]
      have hrev : ('\n' :: cs).reverse = cs.reverse ++ ['\n'] := by simp
      rw [hrev, takeWhile_append_list]
      by_cases hall : cs.reverse.all (fun c => c != '\n') = true
      · rw [if_pos hall, takeWhile_self_of_all _ _ hall]
        simp
      · rw [if_neg hall]
        simp
    · rw [show countLoop (c :: cs) line col = countLoop cs line (col + 1) by
        simp [countLoop, h]]
      rw [ih]
      have hrev : (c :: cs).reverse = cs.reverse ++ [c] := by simp
      rw [hrev, takeWhile_append_list]
      have hmem : ('\n' ∈ c :: cs) ↔ '\n' ∈ cs := by
        constructor
        · intro hx
          rcases List.mem_cons.mp hx with he | hm
          · exact absurd he.symm h
          · exact hm
        · exact fun hm => List.mem_cons_of_mem _ hm
      by_cases hin : '\n' ∈ cs
      · have hall : ¬ cs.reverse.all (fun c => c != '\n') = true := by
          rw [all_ne_newline_iff, List.mem_reverse]
          exact fun hc => hc hin
        rw [if_neg hall]
        simp [hin, hmem]
      · have hall : cs.reverse.all (fun c => c != '\n') = true := by
          rw [all_ne_newline_iff, List.mem_reverse]
          exact hin
        rw [if_pos hall]
        have hc : (fun c => c != '\n') c = true := by
          simp [h]
        simp [hin, hmem, List.takeWhile_cons, hc,
          takeWhile_self_of_all _ _ hall]
        omega

/-- C2: `Coordinates::from_offset(expr, n)` returns a line equal to the
number of newline characters among the first `n` characters of `expr`, and a
column equal to the number of characters after the most recent newline within
those first `n` characters (0-based, reset at each newline). -/
theorem C2_from_offset_line_column (expr : String) (n : Nat) :
    (Coordinates.from_offset expr n).line = (expr.data.take n).count '\n' ∧
    (Coordinates.from_offset expr n).column =
      ((expr.data.take n).reverse.takeWhile (fun c => c != '\n')).length := by
  constructor
  · show (countLoop (expr.data.take n) 0 0).1 = _
    rw [countLoop_fst]
    omega
  · show (countLoop (expr.data.take n) 0 0).2 = _
    rw [countLoop_snd]
    simp

/-- C10: `Coordinates::from_offset` is total in the offset: the stored offset
equals the input even past the end of the string, and the line and column are
computed from only the first `min n (length expr)` characters. -/
theorem C10_from_offset_clamps (expr : String) (n : Nat) :
    (Coordinates.from_offset expr n).offset = n ∧
    (Coordinates.from_offset expr n).line =
      (Coordinates.from_offset expr (min n expr.length)).line ∧
    (Coordinates.from_offset expr n).column =
      (Coordinates.from_offset expr (min n expr.length)).column := by
  have hlen : expr.length = expr.data.length := rfl
  have htake : expr.data.take n = expr.data.take (min n expr.length) := by
    rcases le_or_lt n expr.data.length with h | h
    · have hmin : min n expr.length = n := by omega
      rw [hmin]
    · have hmin : min n expr.length = expr.length := by omega
      rw [hmin, hlen, List.take_length, List.take_of_length_le h.le]
  refine ⟨rfl, ?_, ?_⟩ <;> simp [Coordinates.from_offset, htake]

theorem carLoop_carat (co : Coordinates) (cs : List Char) :
    ∀ (buff : List Char) (matched : Bool) (current_line : Nat),
      (matched = true → ∃ p s, buff = p ++ co.caratChars ++ s) →
      (carLoop co cs buff matched current_line).2 = true →
      ∃ p s,
        (carLoop co cs buff matched current_line).1 =
          p ++ co.caratChars ++ s := by
  induction cs with
  | nil =>
    intro buff matched current_line h hm
    simp only [carLoop] at hm ⊢
    exact h hm
  | cons c cs ih =>
    intro buff matched current_line h
    by_cases hc : c = '\n'
    · by_cases hl : current_line + 1 = co.line + 1
      · rw [show carLoop co (c :: cs) buff matched current_line =
            carLoop co cs (co.inject_carat (buff ++ [c])) true
              (current_line + 1) by simp [carLoop, hc, hl]]
        exact ih _ _ _ (fun _ =>
          ⟨buff ++ [c], [], by simp [Coordinates.inject_carat]⟩)
      · rw [show carLoop co (c :: cs) buff matched current_line =
            carLoop co cs (buff ++ [c]) matched (current_line + 1) by
              simp [carLoop, hc, hl]]
        refine ih _ _ _ (fun hm => ?_)
        obtain ⟨p, s, hps⟩ := h hm
        exact ⟨p, s ++ [c], by simp [hps]⟩
    · rw [show carLoop co (c :: cs) buff matched current_line =
          carLoop co cs (buff ++ [c]) matched current_line by
            simp [carLoop, hc]]
      refine ih _ _ _ (fun hm => ?_)
      obtain ⟨p, s, hps⟩ := h hm
      exact ⟨p, s ++ [c], by simp [hps]⟩

/-- C1: the human-readable display of every error is the rendered reason,
a space, the coordinates in parentheses as `line L, column C`, a newline, and
the original expression rendered with a carat line made of `column` space
characters followed by a carat. -/
theorem C1_error_display (vts : Variable → String) (err : Error) :
    Error.display vts err =
      ErrorReason.display vts err.error_reason ++ " (" ++
        err.coordinates.display ++ ")\n" ++
        err.coordinates.expression_with_carat err.expression ∧
    err.coordinates.display =
      "line " ++ toString err.coordinates.line ++ ", column " ++
        toString err.coordinates.column ∧
    ∃ p s : List Char,
      (err.coordinates.expression_with_carat err.expression).data =
        p ++ (List.replicate err.coordinates.column ' ' ++ ['^', '\n']) ++ s := by
  refine ⟨rfl, by simp [Coordinates.display, String.append_assoc], ?_⟩
  simp only [Coordinates.expression_with_carat]
  by_cases h2 :
      (carLoop err.coordinates err.expression.data [] false 0).2 = true
  · obtain ⟨p, s, hps⟩ :=
      carLoop_carat err.coordinates err.expression.data [] false 0
        (by intro hf; cases hf) h2
    refine ⟨p, s, ?_⟩
    simpa [h2, Coordinates.caratChars] using hps
  · refine ⟨(carLoop err.coordinates err.expression.data [] false 0).1 ++
      ['\n'], [], ?_⟩
    simp [h2, Coordinates.inject_carat, Coordinates.caratChars]

/-- C3: for the expression `foo`, a newline, `..bar`, with an error at offset
5, the coordinates are line 1, column 1, and the diagnostic is the rendered
reason followed by ` (line 1, column 1)`, a newline, the expression, a
newline, and the carat line with one leading space. -/
theorem C3_newline_diagnostic (vts : Variable → String) (r : ErrorReason) :
    Coordinates.from_offset "foo\n..bar" 5 =
        { offset := 5, line := 1, column := 1 } ∧
      Error.display vts (Error.new "foo\n..bar" 5 r) =
        ErrorReason.display vts r ++ " (line 1, column 1)\nfoo\n..bar\n ^\n" := by
  refine ⟨by decide, ?_⟩
  show ErrorReason.display vts r ++ " (" ++
      (Coordinates.from_offset "foo\n..bar" 5).display ++ ")\n" ++
      (Coordinates.from_offset "foo\n..bar" 5).expression_with_carat
        "foo\n..bar" = _
  rw [String.append_assoc, String.append_assoc, String.append_assoc]
  exact congrArg (fun t => ErrorReason.display vts r ++ t) (by decide)

/-- C4: for any two successfully compiled expressions, equality (the
`PartialEq` implementation) holds exactly when the source texts they were
compiled from are equal, regardless of the parser used, the ASTs produced or
the interpreters stored. -/
theorem C4_eq_iff_source {I : Type} (parseA parseB : String → Except Error Ast)
    (iA iB : Option I) (eA eB : String) (a b : Expression I)
    (ha : Expression.with_interpreter parseA eA iA = Except.ok a)
    (hb : Expression.with_interpreter parseB eB iB = Except.ok b) :
    (Expression.eq a b = true ↔ eA = eB) ∧ a.as_str = eA ∧ b.as_str = eB := by
  unfold Expression.with_interpreter at ha hb
  revert ha
  cases parseA eA with
  | error e => intro ha; simp at ha
  | ok tA =>
    intro ha
    simp only [Except.ok.injEq] at ha
    revert hb
    cases parseB eB with
    | error e => intro hb; simp at hb
    | ok tB =>
      intro hb
      simp only [Except.ok.injEq] at hb
      subst ha
      subst hb
      refine ⟨?_, rfl, rfl⟩
      simp [Expression.eq, Expression.as_str]

/-- Witness for C4 at concrete inputs: two expressions compiled from the same
text `x` by different parsers (yielding different ASTs) compare equal. -/
theorem C4_witness :
    Expression.eq
        ({ ast := Ast.Field "x" 0, original := "x", interpreter := none } :
          Expression Unit)
        ({ ast := Ast.Identity 3, original := "x", interpreter := none } :
          Expression Unit) = true :=
  ((C4_eq_iff_source (fun s => Except.ok (Ast.Field s 0))
      (fun _ => Except.ok (Ast.Identity 3)) none none "x" "x"
      { ast := Ast.Field "x" 0, original := "x", interpreter := none }
      { ast := Ast.Identity 3, original := "x", interpreter := none }
      rfl rfl).1).mpr rfl

/-- C5: when compilation succeeds, the compiled expression exposes exactly
the original text via `as_str` and exactly the parser's AST via `as_ast`. -/
theorem C5_compile_faithful {I : Type} (parse : String → Except Error Ast)
    (e : String) (c : Expression I)
    (h : Expression.new parse e = Except.ok c) :
    c.as_str = e ∧ parse e = Except.ok c.as_ast := by
  unfold Expression.new Expression.with_interpreter at h
  revert h
  cases hp : parse e with
  | error err => intro h; simp at h
  | ok t =>
    intro h
    simp only [Except.ok.injEq] at h
    subst h
    exact ⟨rfl, rfl⟩

/-- Witness for C5 at a concrete input: compiling `foo` with the stub parser
stores the text `foo` and the parsed `Field` node. -/
theorem C5_witness :
    ({ ast := Ast.Field "foo" 0, original := "foo", interpreter := none } :
        Expression Unit).as_str = "foo" ∧
      parseStub "foo" =
        Except.ok
          ({ ast := Ast.Field "foo" 0, original := "foo",
              interpreter := none } : Expression Unit).as_ast :=
  C5_compile_faithful parseStub "foo"
    { ast := Ast.Field "foo" 0, original := "foo", interpreter := none } rfl

/-- C6: the convenience `search` function returns exactly the result of
compiling with `Expression::new` and, on success, evaluating the compiled
expression on the data; when parsing fails it returns that parse error for
every serializer, interpreter and input (it never evaluates). -/
theorem C6_search_refines {I T : Type} (parse : String → Except Error Ast)
    (ser : T → Except String Variable)
    (interp : I → Variable → Ast → String → SearchResult) (dflt : I)
    (e : String) (data : T) :
    search parse ser interp dflt e data =
        search_spec parse ser interp dflt e data ∧
      ∀ err, parse e = Except.error err →
        search parse ser interp dflt e data = some (Except.error err) := by
  refine ⟨rfl, fun err hp => ?_⟩
  simp [search, Expression.new, Expression.with_interpreter, hp]

/-- Witness for C6 at a concrete input: with the always-failing parser,
`search` returns the parse error. -/
theorem C6_witness :
    search parseFail serializeValue interpStub () "x" SerdeValue.null =
      some (Except.error (Error.new "x" 0 (ErrorReason.Parse "bad"))) :=
  (C6_search_refines parseFail serializeValue interpStub () "x"
      SerdeValue.null).2
    (Error.new "x" 0 (ErrorReason.Parse "bad")) rfl

/-- C7 counterexample: a value with a non-string object key fails
serialization with a typed error, yet `Expression::search` on that value
returns no result at all (`none` models the panic of
`data.serialize(&mut ser).ok().unwrap()`), not an error result. -/
theorem C7_counterexample :
    serializeValue (SerdeValue.map [(SerdeValue.num 1, SerdeValue.null)]) =
        Except.error "object keys must be strings" ∧
      Expression.search serializeValue interpStub ()
          { ast := Ast.Field "a" 0, original := "a", interpreter := none }
          (SerdeValue.map [(SerdeValue.num 1, SerdeValue.null)]) = none :=
  ⟨rfl, rfl⟩

/-- C7 (amended): the serializer yields a `Variable` or a typed error for
every input, but `Expression::search` aborts (panics) exactly when
serialization fails, instead of reporting the failure as an error result. -/
theorem C7_search_aborts_on_ingestion_failure {I T : Type}
    (ser : T → Except String Variable)
    (interp : I → Variable → Ast → String → SearchResult) (dflt : I)
    (expr : Expression I) (data : T) :
    Expression.search ser interp dflt expr data = none ↔
      ∃ msg, ser data = Except.error msg := by
  unfold Expression.search
  cases hs : ser data with
  | error m =>
    exact ⟨fun _ => ⟨m, rfl⟩, fun _ => rfl⟩
  | ok v =>
    constructor
    · intro hnone
      cases hi : expr.interpreter <;> rw [hi] at hnone <;> cases hnone
    · intro ⟨msg, hmsg⟩
      cases hmsg

/-- C8: every error reason is a `Parse` or a `Runtime` error, and every
runtime error is one of the seven enumerated kinds. -/
theorem C8_error_taxonomy :
    (∀ e : ErrorReason,
        (∃ m, e = ErrorReason.Parse m) ∨ ∃ r, e = ErrorReason.Runtime r) ∧
      ∀ r : RuntimeError,
        r = RuntimeError.InvalidSlice ∨
        (∃ k, r = RuntimeError.InvalidKey k) ∨
        (∃ x y, r = RuntimeError.TooManyArguments x y) ∨
        (∃ x y, r = RuntimeError.NotEnoughArguments x y) ∨
        (∃ n, r = RuntimeError.UnknownFunction n) ∨
        (∃ x y v p, r = RuntimeError.InvalidType x y v p) ∨
        (∃ x y v p i, r = RuntimeError.InvalidReturnType x y v p i) := by
  constructor
  · intro e
    cases e with
    | Parse m => exact Or.inl ⟨m, rfl⟩
    | Runtime r => exact Or.inr ⟨r, rfl⟩
  · intro r
    cases r with
    | InvalidSlice => exact Or.inl rfl
    | InvalidKey k => exact Or.inr (Or.inl ⟨k, rfl⟩)
    | TooManyArguments x y => exact Or.inr (Or.inr (Or.inl ⟨x, y, rfl⟩))
    | NotEnoughArguments x y =>
        exact Or.inr (Or.inr (Or.inr (Or.inl ⟨x, y, rfl⟩)))
    | UnknownFunction n =>
        exact Or.inr (Or.inr (Or.inr (Or.inr (Or.inl ⟨n, rfl⟩))))
    | InvalidType x y v p =>
        exact Or.inr (Or.inr (Or.inr (Or.inr (Or.inr
          (Or.inl ⟨x, y, v, p, rfl⟩)))))
    | InvalidReturnType x y v p i =>
        exact Or.inr (Or.inr (Or.inr (Or.inr (Or.inr
          (Or.inr ⟨x, y, v, p, i, rfl⟩)))))

end JmesPath
